import Mathlib

/-!
Verification of the spy-chat repository core: the conversation history
codec and store (backend/repositories/conversation_repository.py), the
mission tools and the agent mission caches (tools/mission_tools.py,
agent.py, backend/services/agent.py, agent_new.py), and the WebSocket
connection registry (websocket_manager.py). Python values and control
flow are shallowly embedded: JSON values are an inductive type, fallible
calls return an explicit result type, and stateful objects are passed as
explicit state.
-/

namespace SpyRepo

/-- Abstract JSON values as produced by json.loads. Numbers are modelled
as integers; the decode logic only inspects types, keys and truthiness,
never numeric magnitude. -/
inductive Json where
  | null
  | bool (b : Bool)
  | num (n : Int)
  | str (s : String)
  | arr (xs : List Json)
  | obj (fields : List (String × Json))

/-- Python dict lookup on a parsed JSON object (first binding wins,
matching dict semantics since parsed dicts have unique keys). -/
def getField (fields : List (String × Json)) (key : String) : Option Json :=
  match fields with
  | [] => none
  | (k, v) :: rest => if k == key then some v else getField rest key

/-- Python truthiness of a JSON value. -/
def Json.truthy : Json → Bool
  | .null => false
  | .bool b => b
  | .num n => n != 0
  | .str s => !s.isEmpty
  | .arr xs => !xs.isEmpty
  | .obj fs => !fs.isEmpty

/-- Python str() of a JSON value, used by the decoder only to lowercase a
role field and compare it with the word user; containers are abstracted
to bracketed text that can never equal a role word. -/
def Json.pyStr : Json → String
  | .null => "None"
  | .bool true => "True"
  | .bool false => "False"
  | .num n => toString n
  | .str s => s
  | .arr _ => "[...]"
  | .obj _ => "\x7b...\x7d"

/-- Python str.lower, adequate for the ASCII role words the decoder
compares against. -/
def pyLower (s : String) : String := String.mk (s.data.map Char.toLower)

/-- Python equality of an optional JSON value with a string literal, as
in msg.get(k) == w: true exactly when the key is present and holds that
string. -/
def isStrEq (j : Option Json) (w : String) : Bool :=
  match j with
  | some (.str t) => t == w
  | _ => false

/-- pydantic_ai ModelRequest / ModelResponse. The parts field holds the
raw Python value handed to the dataclass constructor (the repository
passes arbitrary decoded JSON there; dataclasses do not validate). -/
inductive ModelMessage where
  | request (parts : Json)
  | response (parts : Json)

/-- A stored messages blob, abstracted by how the two parsers of
get_message_history_sync treat its text: adapter m is the canonical
bytes ModelMessagesTypeAdapter.dump_json(m), which validate_json accepts
back to m; jsonText s j is text s that json.loads parses to j but that
does not validate against the canonical message schema; raw s e is text
that json.loads rejects, where e records the outcome of the regex
extraction fallback on s (none: no embedded object-array match;
some none: a match whose text itself fails json.loads; some (some j): a
match parsing to j). -/
inductive Payload where
  | adapter (msgs : List ModelMessage)
  | jsonText (s : String) (j : Json)
  | raw (s : String) (extracted : Option (Option Json))

/-- Python truthiness of the stored blob (the check not
conversation.messages): dump_json output is at least the two bytes of an
empty list and valid JSON text is never empty, so only raw text can be
falsy. -/
def Payload.truthy : Payload → Bool
  | .adapter _ => true
  | .jsonText _ _ => true
  | .raw s _ => !s.isEmpty

/-- ModelMessagesTypeAdapter.validate_json: succeeds exactly on the
canonical encoding, returning the encoded messages (library round-trip);
the other payload classes fail schema validation by definition. -/
def validateJson : Payload → Option (List ModelMessage)
  | .adapter msgs => some msgs
  | _ => none

/-- The JSON value that the canonical adapter bytes parse to: a list of
objects carrying parts and kind fields. Only needed for totality; the
decoder always accepts a canonical payload in its first step, before
json.loads runs. -/
def canonicalJson (msgs : List ModelMessage) : Json :=
  .arr (msgs.map fun m =>
    match m with
    | .request parts => .obj [("parts", parts), ("kind", .str "request")]
    | .response parts => .obj [("parts", parts), ("kind", .str "response")])

mutual

/-- A plain JSON printer standing for the stored text of a payload in
the branches that fall back to the raw string. -/
def jsonDump : Json → String
  | .null => "null"
  | .bool true => "true"
  | .bool false => "false"
  | .num n => toString n
  | .str s => "\"" ++ s ++ "\""
  | .arr xs => "[" ++ jsonDumpList xs ++ "]"
  | .obj fs => "\x7b" ++ jsonDumpFields fs ++ "\x7d"

def jsonDumpList : List Json → String
  | [] => ""
  | [x] => jsonDump x
  | x :: y :: xs => jsonDump x ++ ", " ++ jsonDumpList (y :: xs)

def jsonDumpFields : List (String × Json) → String
  | [] => ""
  | [(k, v)] => "\"" ++ k ++ "\": " ++ jsonDump v
  | (k, v) :: f :: fs => "\"" ++ k ++ "\": " ++ jsonDump v ++ ", " ++ jsonDumpFields (f :: fs)

end

/-- Python str(conversation.messages): the stored text. -/
def Payload.rawString : Payload → String
  | .adapter msgs => jsonDump (canonicalJson msgs)
  | .jsonText s _ => s
  | .raw s _ => s

/-- The json.loads chain of get_message_history_sync (lines 402-419): a
direct parse, the bytes/str retries, and finally the regex extraction of
an embedded object-array; an error is the re-raise on line 419 or a
parse failure of the extracted text, both of which reach the outer
exception handlers. -/
def pyLoads : Payload → Except Unit Json
  | .adapter msgs => .ok (canonicalJson msgs)
  | .jsonText _ j => .ok j
  | .raw _ none => .error ()
  | .raw _ (some none) => .error ()
  | .raw _ (some (some j)) => .ok j

/-- One entry of a list payload (lines 424-451): a bare string becomes a
response; a dict with a parts key is kept unless parts is falsy, as a
request when kind is request or role is user; a dict with role and
content becomes a single-part message split on the lowered role; other
entries are skipped. -/
def decodeListEntry (msg : Json) : Option ModelMessage :=
  match msg with
  | .str s => some (.response (.arr [.str s]))
  | .obj fields =>
    match getField fields "parts" with
    | some parts =>
      if !parts.truthy then none
      else if isStrEq (getField fields "kind") "request"
          || isStrEq (getField fields "role") "user" then
        some (.request parts)
      else
        some (.response parts)
    | none =>
      match getField fields "role", getField fields "content" with
      | some role, some content =>
        if pyLower role.pyStr == "user" then some (.request (.arr [content]))
        else some (.response (.arr [content]))
      | _, _ => none
  | _ => none

/-- A single dict payload (lines 457-468): unlike the list branch there
is no truthiness check on parts. Returns none when the dict has neither
a parts key nor both role and content. -/
def decodeSingleDict (fields : List (String × Json)) : Option (List ModelMessage) :=
  match getField fields "parts" with
  | some parts =>
    if isStrEq (getField fields "kind") "request"
        || isStrEq (getField fields "role") "user" then
      some [.request parts]
    else
      some [.response parts]
  | none =>
    match getField fields "role", getField fields "content" with
    | some role, some content =>
      if pyLower role.pyStr == "user" then some [.request (.arr [content])]
      else some [.response (.arr [content])]
    | _, _ => none

/-- The body of the outer try of get_message_history_sync (lines
395-480): adapter validation first, then the json.loads chain, the list
branch, the single-dict branch, and the whole-text fallback that wraps
the stored string in one response. An error is an exception reaching the
outer handlers. The stored blob is always str or bytes, so the
isinstance guard of the fallback (line 471) always passes and the final
return of an empty list on line 480 is unreachable. -/
def decodeBody (p : Payload) : Except Unit (List ModelMessage) :=
  match validateJson p with
  | some msgs => .ok msgs
  | none =>
    match pyLoads p with
    | .error e => .error e
    | .ok messagesData =>
      let fromList : List ModelMessage :=
        match messagesData with
        | .arr xs => xs.filterMap decodeListEntry
        | _ => []
      if !fromList.isEmpty then .ok fromList
      else
        match messagesData with
        | .obj fields =>
          match decodeSingleDict fields with
          | some msgs => .ok msgs
          | none => .ok [.response (.arr [.str p.rawString])]
        | _ => .ok [.response (.arr [.str p.rawString])]

/-- A row of the conversation table. -/
structure Conversation where
  id : String
  spy_id : String
  messages : Payload

/-- The conversation table reached through a session, keyed by primary
key id (unique in a well-formed database; lookups take the first
match exactly as query(...).first() does). -/
abbrev DB := List Conversation

/-- Result of a Python call: a normal return or an uncaught exception. -/
inductive PyResult (α : Type) where
  | returns (val : α)
  | raises (msg : String)

/-- get_sync: query(Conversation).filter(id == conversation_id).first(),
the first row carrying the id. -/
def get_sync (db : DB) (conversation_id : String) : Option Conversation :=
  match db with
  | [] => none
  | c :: rest => if c.id == conversation_id then some c else get_sync rest conversation_id

/-- ORM update of the row fetched by primary key: replace the messages
blob of the first row carrying the id. -/
def setMessages (db : DB) (conversation_id : String) (p : Payload) : DB :=
  match db with
  | [] => []
  | c :: rest =>
    if c.id == conversation_id then { c with messages := p } :: rest
    else c :: setMessages rest conversation_id p

/-- store_messages_sync (lines 341-369): fetch the row, raise ValueError
when absent, else overwrite the blob with the canonical adapter bytes
of the full message list and commit. -/
def store_messages_sync (db : DB) (conversation_id : String)
    (messages : List ModelMessage) : PyResult DB :=
  match get_sync db conversation_id with
  | none => .raises ("Conversation " ++ conversation_id ++ " not found")
  | some _ => .returns (setMessages db conversation_id (.adapter messages))

/-- get_message_history_sync (lines 371-487): missing row or falsy blob
yield an empty history; otherwise the decode body runs under the outer
try whose two handlers (lines 482-487) log and return an empty list. -/
def get_message_history_sync (db : DB) (conversation_id : String) :
    PyResult (List ModelMessage) :=
  match get_sync db conversation_id with
  | none => .returns []
  | some conv =>
    if !conv.messages.truthy then .returns []
    else
      match decodeBody conv.messages with
      | .ok msgs => .returns msgs
      | .error _ => .returns []

end SpyRepo

namespace MissionTools

/-- State of the file missions/<mission_id>.txt on disk: absent (the
exists check fails), readable with some text, or present but failing to
read (the exception branch). -/
inductive FileState where
  | absent
  | readable (content : String)
  | unreadable (err : String)
deriving Repr, DecidableEq

/-- The mission backing store, keyed by mission id. -/
abbrev FileSystem := String → FileState

/-- The dict returned by MissionTools.get_mission_context: always has
mission_id and status entries; content is present on success, error on
failure. -/
structure MissionResult where
  mission_id : String
  status : String
  content : Option String
  error : Option String
deriving Repr, DecidableEq

/-- MissionTools.get_mission_context (tools/mission_tools.py lines
17-59): missing file and unreadable file both produce an error dict; a
successful read produces a success dict with the file text. The read is
wrapped in try/except, so no exception escapes. -/
def get_mission_context (fs : FileSystem) (mission_id : String) : MissionResult :=
  match fs mission_id with
  | .absent =>
    { mission_id := mission_id, status := "error", content := none,
      error := some ("Mission not found: " ++ mission_id) }
  | .readable content =>
    { mission_id := mission_id, status := "success", content := some content,
      error := none }
  | .unreadable e =>
    { mission_id := mission_id, status := "error", content := none,
      error := some ("Error processing mission: " ++ e) }

end MissionTools

namespace AgentSrc

open MissionTools

/-- The mutable agent state relevant to the mission cache: the dict
self._mission_cache, plus a counter of calls made to
MissionTools.get_mission_context, which is what a filesystem read is. -/
structure CacheState where
  cache : List (String × MissionResult)
  fetches : Nat

/-- Python dict lookup in the mission cache. -/
def cacheLookup (cache : List (String × MissionResult)) (mission_id : String) :
    Option MissionResult :=
  match cache with
  | [] => none
  | (k, v) :: rest => if k == mission_id then some v else cacheLookup rest mission_id

/-- ChatAgent._get_mission_context (agent.py lines 52-70): return a
cached entry if present; otherwise fetch, and cache the result only
when its status is success. Keys are inserted only on a miss, so the
dict assignment is an append. -/
def _get_mission_context (fs : FileSystem) (st : CacheState) (mission_id : String) :
    MissionResult × CacheState :=
  match cacheLookup st.cache mission_id with
  | some r => (r, st)
  | none =>
    let result := get_mission_context fs mission_id
    if result.status == "success" then
      (result, { cache := st.cache ++ [(mission_id, result)], fetches := st.fetches + 1 })
    else
      (result, { cache := st.cache, fetches := st.fetches + 1 })

end AgentSrc

namespace AgentBackend

open MissionTools

/-- ChatAgent._get_mission_context (backend/services/agent.py lines
62-84), returning the reply string together with a flag recording
whether the filesystem was consulted. An empty id or one whose lowered
form is a placeholder word is rejected before any path is built; the
file read is wrapped in try/except and degrades to an error string. -/
def _get_mission_context (fs : FileSystem) (mission_id : String) : String × Bool :=
  if mission_id.isEmpty
      || SpyRepo.pyLower mission_id == "not specified"
      || SpyRepo.pyLower mission_id == "none" then
    ("No mission ID provided. Please specify a mission ID.", false)
  else
    match fs mission_id with
    | .absent => ("No mission found with ID: " ++ mission_id, true)
    | .readable content => (content, true)
    | .unreadable e => ("Error retrieving mission: " ++ e, true)

end AgentBackend

namespace ChatTurn

/-- Outcome of the awaited pydantic_ai run call as observed by the chat
methods: a final output string, or an exception raised by the LLM
backend or a tool fetch inside the run. -/
inductive LlmOutcome where
  | ok (output : String)
  | exn (msg : String)

/-- The artifact cleanup of backend/services/agent.py lines 162-165:
strip a leading AgentRunResult wrapper, then surrounding quotes. -/
def cleanResponse (response : String) : String :=
  let r1 :=
    if response.startsWith "AgentRunResult(output=" then
      (response.drop 20).dropRight 1
    else response
  if r1.startsWith "\"" && r1.endsWith "\"" then (r1.drop 1).dropRight 1 else r1

/-- The dict returned by the backend chat. -/
structure BackendChatResult where
  response : String
  spy_id : String
  spy_name : String

/-- ChatAgent.chat (backend/services/agent.py lines 141-180): on a
successful run, return the cleaned output; any exception is caught and
converted into an in-character error response. Both paths return a dict
with a response field. -/
def backendChat (llm : LlmOutcome) (spyId spyName : String) :
    SpyRepo.PyResult BackendChatResult :=
  match llm with
  | .ok output =>
    .returns { response := cleanResponse output, spy_id := spyId, spy_name := spyName }
  | .exn e =>
    .returns { response := "I encountered an error: " ++ e, spy_id := spyId,
               spy_name := spyName }

/-- ChatAgent.chat (agent.py lines 121-155): on success the run output
is returned as the response content; any exception is re-raised as
HTTPException(500, ...), which propagates to the caller. -/
def srcAgentChat (llm : LlmOutcome) : SpyRepo.PyResult String :=
  match llm with
  | .ok output => .returns output
  | .exn e => .raises ("LLM call failed: " ++ e)

end ChatTurn

namespace AgentNew

open MissionTools

/-- A caller-supplied tool call of agent_new.ChatAgent.chat: arguments
are the kwargs splatted into the tool function, here the optional
mission_id argument of get_mission_context. -/
structure ToolCall where
  id : String
  name : String
  mission_id : Option String

/-- Output of _handle_tool_call (agent_new.py lines 47-67): an unknown
tool name yields an error dict without touching the backend; a call
whose kwargs do not bind raises TypeError at the call site, caught into
an error dict, again without a backend read; a bound call invokes
MissionTools.get_mission_context once. -/
inductive ToolCallOutput where
  | missing (tool_call_id name : String)
  | badArgs (tool_call_id name : String)
  | content (tool_call_id name : String) (r : MissionResult)

def _handle_tool_call (fs : FileSystem) (tc : ToolCall) : ToolCallOutput :=
  if tc.name == "get_mission_context" then
    match tc.mission_id with
    | some mid => .content tc.id tc.name (get_mission_context fs mid)
    | none => .badArgs tc.id tc.name
  else
    .missing tc.id tc.name

/-- Backend invocations performed by one handled tool call. -/
def backendInvocations (o : ToolCallOutput) : Nat :=
  match o with
  | .content _ _ _ => 1
  | _ => 0

/-- ChatAgent.chat (agent_new.py lines 69-115), observed as the number
of mission-backend invocations it performs and its returned or raised
value: every caller-supplied tool call is handled once, with no bound
and no per-turn policy; then the LLM is consulted, and an exception
there is re-raised as HTTPException(500, ...). -/
def chat (fs : FileSystem) (llm : ChatTurn.LlmOutcome) (tool_calls : List ToolCall) :
    Nat × SpyRepo.PyResult String :=
  let outs := tool_calls.map (_handle_tool_call fs)
  let n := (outs.map backendInvocations).sum
  match llm with
  | .ok output => (n, .returns output)
  | .exn e => (n, .raises ("LLM call failed: " ++ e))

/-- The tool calls of a turn that reach the mission backend. -/
def validCall (tc : ToolCall) : Bool :=
  tc.name == "get_mission_context" && tc.mission_id.isSome

end AgentNew

namespace ConnManager

/-- ConnectionManager state (websocket_manager.py lines 11-17):
connection ids are modelled as the naturals handed out by a fresh-id
counter standing for uuid4 (each connect yields an id never used
before); the websocket handles are opaque to the registry logic and
dropped. The two indexes are insertion-ordered dicts from key to a list
of connection ids, exactly as in the source. -/
structure State where
  active_connections : List Nat
  spy_connections : List (String × List Nat)
  conversation_connections : List (String × List Nat)
  next_id : Nat

def initState : State :=
  { active_connections := [], spy_connections := [],
    conversation_connections := [], next_id := 0 }

/-- Register a connection id under a key: append to the existing bucket,
or create a singleton bucket at the end of the dict (dict insertion
order). -/
def addToIndex (index : List (String × List Nat)) (key : String) (cid : Nat) :
    List (String × List Nat) :=
  match index with
  | [] => [(key, [cid])]
  | (k, l) :: rest =>
    if k == key then (k, l ++ [cid]) :: rest
    else (k, l) :: addToIndex rest key cid

/-- connect (lines 19-41): accept, mint a fresh id, add it to the active
map, and index it under the spy and conversation keys when those are
truthy (a None or empty-string key registers nothing). -/
def connect (st : State) (spy_id conversation_id : Option String) : State × Nat :=
  let cid := st.next_id
  let spies :=
    match spy_id with
    | some s => if s.isEmpty then st.spy_connections else addToIndex st.spy_connections s cid
    | none => st.spy_connections
  let convs :=
    match conversation_id with
    | some s =>
      if s.isEmpty then st.conversation_connections
      else addToIndex st.conversation_connections s cid
    | none => st.conversation_connections
  ({ active_connections := st.active_connections ++ [cid],
     spy_connections := spies,
     conversation_connections := convs,
     next_id := cid + 1 }, cid)

/-- The removal loop of disconnect over one index (lines 50-66): walk
the dict in order, remove the id from the first bucket containing it,
delete the bucket if that emptied it, and break. -/
def removeFromIndex (index : List (String × List Nat)) (cid : Nat) :
    List (String × List Nat) :=
  match index with
  | [] => []
  | (k, l) :: rest =>
    if l.contains cid then
      let l2 := l.erase cid
      if l2.isEmpty then rest else (k, l2) :: rest
    else
      (k, l) :: removeFromIndex rest cid

/-- disconnect (lines 43-69): a no-op for an unknown id; otherwise the
id is removed from both indexes and then from the active map. -/
def disconnect (st : State) (cid : Nat) : State :=
  if st.active_connections.contains cid then
    { active_connections := st.active_connections.erase cid,
      spy_connections := removeFromIndex st.spy_connections cid,
      conversation_connections := removeFromIndex st.conversation_connections cid,
      next_id := st.next_id }
  else st

/-- A client-driven operation on the registry. -/
inductive Op where
  | connect (spy_id conversation_id : Option String)
  | disconnect (cid : Nat)

def runOp (st : State) : Op → State
  | .connect s c => (connect st s c).1
  | .disconnect cid => disconnect st cid

/-- The registry state after a sequence of connect and disconnect
operations starting from a fresh manager. -/
def run (ops : List Op) : State := ops.foldl runOp initState

/-- All connection ids appearing in an index, in dict order. -/
def cids (index : List (String × List Nat)) : List Nat :=
  match index with
  | [] => []
  | (_, l) :: rest => l ++ cids rest

/-- Every bucket is a non-empty list of ids that are keys of the active
map. -/
def bucketsOk (index : List (String × List Nat)) (active : List Nat) : Bool :=
  index.all fun kv => !kv.2.isEmpty && kv.2.all fun c => active.contains c

def indexOk (st : State) : Bool :=
  bucketsOk st.spy_connections st.active_connections
    && bucketsOk st.conversation_connections st.active_connections

/-- The inductive invariant of the registry: ids are below the fresh-id
counter, the active map has no duplicate keys, and each index carries
pairwise-distinct ids that are all active, in non-empty buckets. -/
def Inv (st : State) : Prop :=
  (∀ c ∈ st.active_connections, c < st.next_id) ∧
  st.active_connections.Nodup ∧
  (cids st.spy_connections).Nodup ∧
  (∀ c ∈ cids st.spy_connections, c ∈ st.active_connections) ∧
  (∀ kv ∈ st.spy_connections, kv.2 ≠ []) ∧
  (cids st.conversation_connections).Nodup ∧
  (∀ c ∈ cids st.conversation_connections, c ∈ st.active_connections) ∧
  (∀ kv ∈ st.conversation_connections, kv.2 ≠ [])

end ConnManager

namespace AppendRace

open SpyRepo

/-- One client appending to a conversation through the repository: it
first reads the full history with get_message_history_sync, then stores
the read history extended with its own messages via store_messages_sync.
The program counter records where the client stands between those two
repository calls. -/
inductive WriterPC where
  | toRead
  | toWrite (readHistory : List ModelMessage)
  | done

/-- Run the next repository call of one writer against the shared
database. The raises branches are unreachable here (a read never raises
and the row exists), but are modelled as written: a raise aborts the
writer without changing the database. -/
def stepWriter (cid : String) (own : List ModelMessage) (db : DB) :
    WriterPC → WriterPC × DB
  | .toRead =>
    match get_message_history_sync db cid with
    | .returns h => (.toWrite h, db)
    | .raises _ => (.done, db)
  | .toWrite h =>
    match store_messages_sync db cid (h ++ own) with
    | .returns db2 => (.done, db2)
    | .raises _ => (.done, db)
  | .done => (.done, db)

/-- Shared state of two concurrent appenders. -/
structure RaceState where
  db : DB
  w1 : WriterPC
  w2 : WriterPC

/-- An interleaving schedule: true steps writer 1, false steps
writer 2. -/
def runSchedule (cid : String) (m1 m2 : List ModelMessage)
    (st : RaceState) : List Bool → RaceState
  | [] => st
  | true :: rest =>
    let (pc, db) := stepWriter cid m1 st.db st.w1
    runSchedule cid m1 m2 { st with db := db, w1 := pc } rest
  | false :: rest =>
    let (pc, db) := stepWriter cid m2 st.db st.w2
    runSchedule cid m1 m2 { st with db := db, w2 := pc } rest

/-- Two appends to conversation cid started from the same initial
database, executed under the given interleaving. -/
def race (db0 : DB) (cid : String) (m1 m2 : List ModelMessage)
    (schedule : List Bool) : RaceState :=
  runSchedule cid m1 m2 { db := db0, w1 := .toRead, w2 := .toRead } schedule

/-- The stored log of conversation cid after the race. -/
def finalLog (st : RaceState) (cid : String) : List ModelMessage :=
  match get_message_history_sync st.db cid with
  | .returns h => h
  | .raises _ => []

end AppendRace

namespace Fixtures

/-- A backing store with no mission files at all. -/
def absentFS : MissionTools.FileSystem := fun _ => .absent

/-- A backing store where every mission file reads successfully. -/
def intelFS : MissionTools.FileSystem := fun _ => .readable "intel"

/-- A well-formed mission tool call. -/
def tc0 : AgentNew.ToolCall :=
  { id := "t1", name := "get_mission_context", mission_id := some "atlas-9" }

/-- A one-conversation database whose log is empty. -/
def db0 : SpyRepo.DB :=
  [{ id := "c1", spy_id := "spy-7", messages := .adapter [] }]

/-- The message set appended by the first concurrent writer. -/
def m1 : List SpyRepo.ModelMessage := [.request (.arr [.str "a"])]

/-- The message set appended by the second concurrent writer. -/
def m2 : List SpyRepo.ModelMessage := [.response (.arr [.str "b"])]

end Fixtures

section Lemmas

/-- An entry appended to a cache that misses a key is found by a later
lookup of that key. -/
theorem cacheLookup_append_self (cache : List (String × MissionTools.MissionResult))
    (mission_id : String) (r : MissionTools.MissionResult)
    (h : AgentSrc.cacheLookup cache mission_id = none) :
    AgentSrc.cacheLookup (cache ++ [(mission_id, r)]) mission_id = some r := by
  induction cache with
  | nil => simp [AgentSrc.cacheLookup]
  | cons kv rest ih =>
    rw [AgentSrc.cacheLookup] at h
    by_cases hk : (kv.1 == mission_id) = true
    · simp [hk] at h
    · simp only [List.cons_append, AgentSrc.cacheLookup, hk, if_neg]
      simp only [hk, if_false] at h ⊢
      exact ih h

/-- Updating the messages of the row found by get_sync is visible to the
next get_sync of the same id. -/
theorem get_sync_setMessages (db : SpyRepo.DB) (cid : String) (p : SpyRepo.Payload)
    (c : SpyRepo.Conversation) (h : SpyRepo.get_sync db cid = some c) :
    SpyRepo.get_sync (SpyRepo.setMessages db cid p) cid = some { c with messages := p } := by
  induction db with
  | nil => simp [SpyRepo.get_sync] at h
  | cons d rest ih =>
    by_cases hd : (d.id == cid) = true
    · rw [SpyRepo.get_sync, if_pos hd] at h
      injection h with h
      subst h
      rw [SpyRepo.setMessages, if_pos hd, SpyRepo.get_sync, if_pos hd]
    · rw [SpyRepo.get_sync, if_neg hd] at h
      rw [SpyRepo.setMessages, if_neg hd, SpyRepo.get_sync, if_neg hd]
      exact ih h

end Lemmas

/-- C3: for every stored message payload, well formed or not, the
history decode operation get_message_history_sync returns a list of
messages and never propagates an exception to its caller: every failure
path inside the decode is caught by the outer handlers, which return an
empty list. -/
theorem C3_history_decode_never_raises (db : SpyRepo.DB) (conversation_id : String) :
    ∃ msgs, SpyRepo.get_message_history_sync db conversation_id =
      SpyRepo.PyResult.returns msgs := by
  rw [SpyRepo.get_message_history_sync]
  split
  · exact ⟨[], rfl⟩
  · split
    · exact ⟨[], rfl⟩
    · split
      · exact ⟨_, rfl⟩
      · exact ⟨[], rfl⟩

/-- C9: MissionTools.get_mission_context never raises and always
returns a dict carrying mission_id and status, with status success and
the file text as content exactly when the mission file exists and is
readable, and status error with an error message otherwise. -/
theorem C9_mission_tools_result_shape (fs : MissionTools.FileSystem)
    (mission_id : String) :
    (MissionTools.get_mission_context fs mission_id).mission_id = mission_id ∧
    ((∃ text, fs mission_id = .readable text ∧
        (MissionTools.get_mission_context fs mission_id).status = "success" ∧
        (MissionTools.get_mission_context fs mission_id).content = some text) ∨
      ((∀ text, fs mission_id ≠ .readable text) ∧
        (MissionTools.get_mission_context fs mission_id).status = "error" ∧
        (MissionTools.get_mission_context fs mission_id).error.isSome = true)) := by
  unfold MissionTools.get_mission_context
  cases hf : fs mission_id <;> simp [hf]

/-- C10: the backend agent rejects an empty mission id and the
placeholder ids whose lowered form is the word none or the words not
specified, returning the fixed refusal string without touching the
backing store. -/
theorem C10_placeholder_mission_id (fs : MissionTools.FileSystem) (mission_id : String)
    (h : mission_id = "" ∨ SpyRepo.pyLower mission_id = "not specified"
        ∨ SpyRepo.pyLower mission_id = "none") :
    AgentBackend._get_mission_context fs mission_id =
      ("No mission ID provided. Please specify a mission ID.", false) := by
  rcases h with h | h | h
  · subst h; rfl
  · simp [AgentBackend._get_mission_context, h]
  · simp [AgentBackend._get_mission_context, h]

/-- C10 witness: the placeholder id None is refused without a
filesystem read. -/
theorem C10_placeholder_mission_id_witness :
    AgentBackend._get_mission_context Fixtures.absentFS "None" =
      ("No mission ID provided. Please specify a mission ID.", false) :=
  C10_placeholder_mission_id Fixtures.absentFS "None" (Or.inr (Or.inr (by decide)))

/-- C2 counterexample: with an empty backing store, the first lookup of
mission atlas-9 through the agent cache yields status error, and a
second call with the same mission id performs a second backing fetch
(the fetch counter reaches 2), because agent.py caches only results
whose status is success. -/
theorem C2_counterexample :
    (AgentSrc._get_mission_context Fixtures.absentFS
        { cache := [], fetches := 0 } "atlas-9").1.status = "error" ∧
    (AgentSrc._get_mission_context Fixtures.absentFS
        (AgentSrc._get_mission_context Fixtures.absentFS
          { cache := [], fetches := 0 } "atlas-9").2 "atlas-9").2.fetches = 2 :=
  ⟨rfl, rfl⟩

/-- C2 amended: the agent mission cache stores only success results. On
a cache miss, a fetch with status other than success leaves the cache
unchanged and a repeat call fetches again (two backing reads), while a
success fetch is cached and a repeat call is served from the cache with
no further backing read, returning the same result. -/
theorem C2_error_results_not_cached (fs : MissionTools.FileSystem)
    (st : AgentSrc.CacheState) (mission_id : String)
    (h : AgentSrc.cacheLookup st.cache mission_id = none) :
    ((AgentSrc._get_mission_context fs st mission_id).1.status ≠ "success" →
      (AgentSrc._get_mission_context fs
          (AgentSrc._get_mission_context fs st mission_id).2 mission_id).2.fetches
        = st.fetches + 2) ∧
    ((AgentSrc._get_mission_context fs st mission_id).1.status = "success" →
      (AgentSrc._get_mission_context fs
          (AgentSrc._get_mission_context fs st mission_id).2 mission_id).2.fetches
        = st.fetches + 1 ∧
      (AgentSrc._get_mission_context fs
          (AgentSrc._get_mission_context fs st mission_id).2 mission_id).1
        = (AgentSrc._get_mission_context fs st mission_id).1) := by
  have h1 :
      AgentSrc._get_mission_context fs st mission_id =
        (MissionTools.get_mission_context fs mission_id,
          if ((MissionTools.get_mission_context fs mission_id).status == "success") = true
          then
            { cache := st.cache ++ [(mission_id, MissionTools.get_mission_context fs mission_id)],
              fetches := st.fetches + 1 }
          else { cache := st.cache, fetches := st.fetches + 1 }) := by
    rw [AgentSrc._get_mission_context, h]
    dsimp only
    split <;> rfl
  by_cases hs : ((MissionTools.get_mission_context fs mission_id).status == "success") = true
  · rw [h1, if_pos hs]
    constructor
    · intro hne
      exact absurd (eq_of_beq hs) hne
    · intro _
      rw [AgentSrc._get_mission_context]
      dsimp only
      rw [cacheLookup_append_self st.cache mission_id _ h]
      exact ⟨rfl, rfl⟩
  · rw [h1, if_neg hs]
    constructor
    · intro _
      rw [AgentSrc._get_mission_context]
      dsimp only
      rw [h, if_neg hs]
    · intro heq
      exact absurd (beq_iff_eq.mpr heq) hs

/-- C2 amended witness: a readable mission is fetched once and the
repeat is served from the cache; instantiated at a store where every
mission reads successfully. -/
theorem C2_error_results_not_cached_witness :
    ((AgentSrc._get_mission_context Fixtures.intelFS
        { cache := [], fetches := 0 } "atlas-9").1.status ≠ "success" →
      (AgentSrc._get_mission_context Fixtures.intelFS
          (AgentSrc._get_mission_context Fixtures.intelFS
            { cache := [], fetches := 0 } "atlas-9").2 "atlas-9").2.fetches = 0 + 2) ∧
    ((AgentSrc._get_mission_context Fixtures.intelFS
        { cache := [], fetches := 0 } "atlas-9").1.status = "success" →
      (AgentSrc._get_mission_context Fixtures.intelFS
          (AgentSrc._get_mission_context Fixtures.intelFS
            { cache := [], fetches := 0 } "atlas-9").2 "atlas-9").2.fetches = 0 + 1 ∧
      (AgentSrc._get_mission_context Fixtures.intelFS
          (AgentSrc._get_mission_context Fixtures.intelFS
            { cache := [], fetches := 0 } "atlas-9").2 "atlas-9").1
        = (AgentSrc._get_mission_context Fixtures.intelFS
            { cache := [], fetches := 0 } "atlas-9").1) :=
  C2_error_results_not_cached Fixtures.intelFS { cache := [], fetches := 0 } "atlas-9" rfl

/-- C5: storing a canonical message sequence with store_messages_sync
and decoding it back with get_message_history_sync reproduces the
sequence exactly, for any conversation that exists in the database. -/
theorem C5_store_decode_roundtrip (db : SpyRepo.DB) (cid : String)
    (msgs : List SpyRepo.ModelMessage)
    (h : ∃ c, SpyRepo.get_sync db cid = some c) :
    ∃ db2, SpyRepo.store_messages_sync db cid msgs = .returns db2 ∧
      SpyRepo.get_message_history_sync db2 cid = .returns msgs := by
  obtain ⟨c, hc⟩ := h
  refine ⟨SpyRepo.setMessages db cid (.adapter msgs), ?_, ?_⟩
  · rw [SpyRepo.store_messages_sync, hc]
  · rw [SpyRepo.get_message_history_sync, get_sync_setMessages db cid _ c hc]
    rfl

/-- C5 witness: the round trip at a concrete one-row database and a
concrete one-message sequence. -/
theorem C5_store_decode_roundtrip_witness :
    ∃ db2, SpyRepo.store_messages_sync Fixtures.db0 "c1" Fixtures.m1 = .returns db2 ∧
      SpyRepo.get_message_history_sync db2 "c1" = .returns Fixtures.m1 :=
  C5_store_decode_roundtrip Fixtures.db0 "c1" Fixtures.m1
    ⟨{ id := "c1", spy_id := "spy-7", messages := .adapter [] }, rfl⟩

/-- C4 counterexample: the stored payload hello is raw non-JSON text,
yet get_message_history_sync returns the empty list for it, not a
single assistant message carrying the payload: the decoder re-raises
inside the extraction fallback and the outer handler returns an empty
list. -/
theorem C4_counterexample :
    SpyRepo.get_message_history_sync
        [{ id := "c1", spy_id := "spy-1", messages := .raw "hello" none }] "c1"
      = .returns [] ∧
    SpyRepo.PyResult.returns [SpyRepo.ModelMessage.response (.arr [.str "hello"])]
      ≠ SpyRepo.PyResult.returns ([] : List SpyRepo.ModelMessage) := by
  refine ⟨rfl, ?_⟩
  intro hcontra
  injection hcontra with hl
  exact absurd hl (by simp)

/-- C4 amended: a stored payload of raw non-JSON text from which no
embedded JSON object-array can be extracted decodes to the empty list:
the whole-payload single-assistant-message fallback is reached only by
payloads that parse as JSON but match no known message shape. -/
theorem C4_raw_text_decodes_empty (s : String) :
    SpyRepo.get_message_history_sync
        [{ id := "c1", spy_id := "spy-1", messages := .raw s none }] "c1"
      = .returns [] := by
  rw [SpyRepo.get_message_history_sync]
  by_cases hs : s.isEmpty = true <;>
    simp [SpyRepo.get_sync, SpyRepo.Payload.truthy, SpyRepo.decodeBody,
      SpyRepo.validateJson, SpyRepo.pyLoads, hs]

/-- C7 counterexample: one of the two chat implementations the claim
covers, ChatAgent.chat of agent.py, does not convert an LLM failure
into response text: it re-raises it as HTTPException(500, ...), so the
turn propagates an exception instead of returning a textual reply. -/
theorem C7_counterexample :
    ChatTurn.srcAgentChat (.exn "connection refused")
      = SpyRepo.PyResult.raises "LLM call failed: connection refused" ∧
    ¬ ∃ text, ChatTurn.srcAgentChat (.exn "connection refused")
      = SpyRepo.PyResult.returns text := by
  refine ⟨rfl, ?_⟩
  rintro ⟨text, ht⟩
  simp [ChatTurn.srcAgentChat] at ht

/-- C7 amended: the backend service chat (backend/services/agent.py)
always returns a response dict, converting any LLM or tool failure into
an in-character error string, while the legacy agent.py chat propagates
every failure to its caller as HTTPException(500, ...). -/
theorem C7_backend_chat_always_answers (llm : ChatTurn.LlmOutcome)
    (spyId spyName : String) :
    (∃ r, ChatTurn.backendChat llm spyId spyName = .returns r) ∧
    (∀ e, ChatTurn.srcAgentChat (.exn e)
      = SpyRepo.PyResult.raises ("LLM call failed: " ++ e)) := by
  constructor
  · cases llm <;> exact ⟨_, rfl⟩
  · intro e
    rfl

/-- C6 counterexample: a turn of agent_new.ChatAgent.chat given four
well-formed tool calls performs four backend invocations, above any
fixed small bound of one to three, and still ends as a normal
response, not a Failed or apology outcome. -/
theorem C6_counterexample :
    (AgentNew.chat Fixtures.absentFS (.ok "done") (List.replicate 4 Fixtures.tc0)).1 = 4 ∧
    (AgentNew.chat Fixtures.absentFS (.ok "done") (List.replicate 4 Fixtures.tc0)).2
      = .returns "done" :=
  ⟨rfl, rfl⟩

/-- C6 amended: the number of tool invocations in a turn of
agent_new.ChatAgent.chat equals the number of well-formed
caller-supplied tool calls, bounded by no per-turn constant, and no
Failed or apology outcome exists: the turn either returns the LLM
output or re-raises an LLM failure as HTTPException(500, ...). -/
theorem C6_tool_calls_unbounded (fs : MissionTools.FileSystem)
    (llm : ChatTurn.LlmOutcome) (tool_calls : List AgentNew.ToolCall) :
    (AgentNew.chat fs llm tool_calls).1 = tool_calls.countP AgentNew.validCall ∧
    ((∃ s, llm = .ok s ∧ (AgentNew.chat fs llm tool_calls).2 = .returns s) ∨
      (∃ e, llm = .exn e ∧
        (AgentNew.chat fs llm tool_calls).2
          = .raises ("LLM call failed: " ++ e))) := by
  have hcount : ∀ l : List AgentNew.ToolCall,
      ((l.map (AgentNew._handle_tool_call fs)).map AgentNew.backendInvocations).sum
        = l.countP AgentNew.validCall := by
    intro l
    induction l with
    | nil => rfl
    | cons tc rest ih =>
      have hone : AgentNew.backendInvocations (AgentNew._handle_tool_call fs tc)
          = if AgentNew.validCall tc then 1 else 0 := by
        rw [AgentNew._handle_tool_call, AgentNew.validCall]
        by_cases hn : (tc.name == "get_mission_context") = true
        · cases hm : tc.mission_id <;> simp [hn, hm, AgentNew.backendInvocations]
        · simp [hn, AgentNew.backendInvocations]
      simp only [List.map_cons, List.sum_cons, List.countP_cons, ih, hone]
      by_cases hv : AgentNew.validCall tc = true <;> (simp [hv]; try omega)
  cases llm with
  | ok s =>
    refine ⟨hcount tool_calls, Or.inl ⟨s, rfl, rfl⟩⟩
  | exn e =>
    refine ⟨hcount tool_calls, Or.inr ⟨e, rfl, rfl⟩⟩

/-- C1: evaluation of two concurrent appends at the failing
interleaving read1, read2, write1, write2: from an empty log, the final
stored log holds only the second writer's message set, the first
writer's append is silently lost; under the serialized schedule the log
holds both sets. The store has no per-conversation serialization, so
the spec-required no-lost-writes property fails. -/
theorem C1_lost_update :
    AppendRace.finalLog
        (AppendRace.race Fixtures.db0 "c1" Fixtures.m1 Fixtures.m2
          [true, false, true, false]) "c1"
      = Fixtures.m2 ∧
    ¬ SpyRepo.ModelMessage.request (.arr [.str "a"])
        ∈ AppendRace.finalLog
          (AppendRace.race Fixtures.db0 "c1" Fixtures.m1 Fixtures.m2
            [true, false, true, false]) "c1" ∧
    AppendRace.finalLog
        (AppendRace.race Fixtures.db0 "c1" Fixtures.m1 Fixtures.m2
          [true, true, false, false]) "c1"
      = Fixtures.m1 ++ Fixtures.m2 := by
  refine ⟨rfl, ?_, rfl⟩
  intro hmem
  have : AppendRace.finalLog
      (AppendRace.race Fixtures.db0 "c1" Fixtures.m1 Fixtures.m2
        [true, false, true, false]) "c1" = Fixtures.m2 := rfl
  rw [this] at hmem
  simp [Fixtures.m2] at hmem

namespace ConnManager

theorem mem_cids (index : List (String × List Nat)) (kv : String × List Nat)
    (hkv : kv ∈ index) (x : Nat) (hx : x ∈ kv.2) : x ∈ cids index := by
  induction index with
  | nil => cases hkv
  | cons kv0 rest ih =>
    have hc : cids (kv0 :: rest) = kv0.2 ++ cids rest := rfl
    rw [hc, List.mem_append]
    rcases List.mem_cons.mp hkv with rfl | hkv2
    · exact Or.inl hx
    · exact Or.inr (ih hkv2)

theorem cids_addToIndex_perm (index : List (String × List Nat)) (key : String)
    (c : Nat) : List.Perm (cids (addToIndex index key c)) (c :: cids index) := by
  induction index with
  | nil => simp [addToIndex, cids]
  | cons kv rest ih =>
    obtain ⟨k, l⟩ := kv
    rw [addToIndex]
    by_cases hk : (k == key) = true
    · rw [if_pos hk]
      show List.Perm ((l ++ [c]) ++ cids rest) (c :: (l ++ cids rest))
      have p1 : List.Perm ((l ++ [c]) ++ cids rest) (([c] ++ l) ++ cids rest) :=
        List.Perm.append_right _ List.perm_append_comm
      have p2 : ([c] ++ l) ++ cids rest = c :: (l ++ cids rest) := by simp
      rw [p2] at p1
      exact p1
    · rw [if_neg hk]
      show List.Perm (l ++ cids (addToIndex rest key c)) (c :: (l ++ cids rest))
      exact (List.Perm.append_left l ih).trans List.perm_middle

theorem addToIndex_nonempty (index : List (String × List Nat)) (key : String)
    (c : Nat) (h : ∀ kv ∈ index, kv.2 ≠ []) :
    ∀ kv ∈ addToIndex index key c, kv.2 ≠ [] := by
  induction index with
  | nil =>
    intro kv hkv
    simp only [addToIndex, List.mem_singleton] at hkv
    subst hkv
    simp
  | cons kv0 rest ih =>
    obtain ⟨k, l⟩ := kv0
    rw [addToIndex]
    by_cases hk : (k == key) = true
    · rw [if_pos hk]
      intro kv hkv
      rcases List.mem_cons.mp hkv with rfl | hkv2
      · simp
      · exact h kv (List.mem_cons_of_mem _ hkv2)
    · rw [if_neg hk]
      intro kv hkv
      rcases List.mem_cons.mp hkv with rfl | hkv2
      · exact h (k, l) (List.mem_cons_self _ _)
      · exact ih (fun kv2 hkv2b => h kv2 (List.mem_cons_of_mem _ hkv2b)) kv hkv2

theorem cids_removeFromIndex_sublist (index : List (String × List Nat)) (c : Nat) :
    List.Sublist (cids (removeFromIndex index c)) (cids index) := by
  induction index with
  | nil => exact List.Sublist.refl _
  | cons kv rest ih =>
    obtain ⟨k, l⟩ := kv
    rw [removeFromIndex]
    by_cases hc : l.contains c = true
    · rw [if_pos hc]
      dsimp only
      by_cases he : (l.erase c).isEmpty = true
      · rw [if_pos he]
        show List.Sublist (cids rest) (l ++ cids rest)
        exact List.sublist_append_right _ _
      · rw [if_neg he]
        show List.Sublist ((l.erase c) ++ cids rest) (l ++ cids rest)
        exact List.Sublist.append (List.erase_sublist c l) (List.Sublist.refl _)
    · rw [if_neg hc]
      show List.Sublist (l ++ cids (removeFromIndex rest c)) (l ++ cids rest)
      exact List.Sublist.append_left ih l

theorem not_mem_cids_removeFromIndex (index : List (String × List Nat)) (c : Nat)
    (h : (cids index).Nodup) : ¬ c ∈ cids (removeFromIndex index c) := by
  induction index with
  | nil => simp [removeFromIndex, cids]
  | cons kv rest ih =>
    obtain ⟨k, l⟩ := kv
    have hsplit : cids ((k, l) :: rest) = l ++ cids rest := rfl
    rw [hsplit] at h
    obtain ⟨h1, h2, hdisj⟩ := List.nodup_append.mp h
    rw [removeFromIndex]
    by_cases hc : l.contains c = true
    · have hcl : c ∈ l := List.mem_of_elem_eq_true hc
      rw [if_pos hc]
      dsimp only
      by_cases he : (l.erase c).isEmpty = true
      · rw [if_pos he]
        intro hmem
        exact hdisj hcl hmem
      · rw [if_neg he]
        intro hmem
        rw [show cids ((k, l.erase c) :: rest) = (l.erase c) ++ cids rest from rfl]
          at hmem
        rcases List.mem_append.mp hmem with hm | hm
        · exact absurd ((h1.mem_erase_iff).mp hm).1 (by simp)
        · exact hdisj hcl hm
    · rw [if_neg hc]
      intro hmem
      rw [show cids ((k, l) :: removeFromIndex rest c) = l ++ cids (removeFromIndex rest c)
        from rfl] at hmem
      rcases List.mem_append.mp hmem with hm | hm
      · exact hc (List.elem_eq_true_of_mem hm)
      · exact ih h2 hm

theorem removeFromIndex_nonempty (index : List (String × List Nat)) (c : Nat)
    (h : ∀ kv ∈ index, kv.2 ≠ []) :
    ∀ kv ∈ removeFromIndex index c, kv.2 ≠ [] := by
  induction index with
  | nil =>
    intro kv hkv
    simp [removeFromIndex] at hkv
  | cons kv0 rest ih =>
    obtain ⟨k, l⟩ := kv0
    rw [removeFromIndex]
    by_cases hc : l.contains c = true
    · rw [if_pos hc]
      dsimp only
      by_cases he : (l.erase c).isEmpty = true
      · rw [if_pos he]
        intro kv hkv
        exact h kv (List.mem_cons_of_mem _ hkv)
      · rw [if_neg he]
        intro kv hkv
        rcases List.mem_cons.mp hkv with rfl | hkv2
        · intro h0
          exact he (by rw [show l.erase c = [] from h0]; rfl)
        · exact h kv (List.mem_cons_of_mem _ hkv2)
    · rw [if_neg hc]
      intro kv hkv
      rcases List.mem_cons.mp hkv with rfl | hkv2
      · exact h (k, l) (List.mem_cons_self _ _)
      · exact ih (fun kv2 hkv2b => h kv2 (List.mem_cons_of_mem _ hkv2b)) kv hkv2

theorem runOp_preserves (st : State) (op : Op) (h : Inv st) : Inv (runOp st op) := by
  obtain ⟨hlt, hnd, hs1, hs2, hs3, hc1, hc2, hc3⟩ := h
  cases op with
  | connect spy conv =>
    have hIdx : ∀ (index newIndex : List (String × List Nat)),
        (newIndex = index ∨ ∃ k, newIndex = addToIndex index k st.next_id) →
        (cids index).Nodup →
        (∀ x ∈ cids index, x ∈ st.active_connections) →
        (∀ kv ∈ index, kv.2 ≠ []) →
        ((cids newIndex).Nodup ∧
          (∀ x ∈ cids newIndex, x ∈ st.active_connections ++ [st.next_id]) ∧
          (∀ kv ∈ newIndex, kv.2 ≠ [])) := by
      intro index newIndex hcase hN hM hB
      have hfresh : ¬ st.next_id ∈ cids index := by
        intro hmem
        exact absurd (hlt _ (hM _ hmem)) (lt_irrefl _)
      rcases hcase with rfl | ⟨k, rfl⟩
      · exact ⟨hN, fun x hx => List.mem_append_left _ (hM x hx), hB⟩
      · have hperm := cids_addToIndex_perm index k st.next_id
        refine ⟨?_, ?_, addToIndex_nonempty index k st.next_id hB⟩
        · exact (hperm.nodup_iff).mpr (List.nodup_cons.mpr ⟨hfresh, hN⟩)
        · intro x hx
          rcases List.mem_cons.mp (hperm.mem_iff.mp hx) with rfl | hx2
          · exact List.mem_append_right _ (List.mem_singleton_self _)
          · exact List.mem_append_left _ (hM x hx2)
    have hspy : (connect st spy conv).1.spy_connections = st.spy_connections ∨
        ∃ k, (connect st spy conv).1.spy_connections
          = addToIndex st.spy_connections k st.next_id := by
      cases spy with
      | none => exact Or.inl rfl
      | some s =>
        have hred : (connect st (some s) conv).1.spy_connections
            = if s.isEmpty = true then st.spy_connections
              else addToIndex st.spy_connections s st.next_id := rfl
        by_cases hs : s.isEmpty = true
        · rw [hred, if_pos hs]
          exact Or.inl rfl
        · rw [hred, if_neg hs]
          exact Or.inr ⟨s, rfl⟩
    have hconv : (connect st spy conv).1.conversation_connections
          = st.conversation_connections ∨
        ∃ k, (connect st spy conv).1.conversation_connections
          = addToIndex st.conversation_connections k st.next_id := by
      cases conv with
      | none => exact Or.inl rfl
      | some s =>
        have hred : (connect st spy (some s)).1.conversation_connections
            = if s.isEmpty = true then st.conversation_connections
              else addToIndex st.conversation_connections s st.next_id := rfl
        by_cases hs : s.isEmpty = true
        · rw [hred, if_pos hs]
          exact Or.inl rfl
        · rw [hred, if_neg hs]
          exact Or.inr ⟨s, rfl⟩
    obtain ⟨hA1, hA2, hA3⟩ := hIdx st.spy_connections _ hspy hs1 hs2 hs3
    obtain ⟨hB1, hB2, hB3⟩ := hIdx st.conversation_connections _ hconv hc1 hc2 hc3
    show Inv (connect st spy conv).1
    refine ⟨?_, ?_, hA1, hA2, hA3, hB1, hB2, hB3⟩
    · show ∀ x ∈ st.active_connections ++ [st.next_id], x < st.next_id + 1
      intro x hx
      rcases List.mem_append.mp hx with hx2 | hx2
      · exact Nat.lt_succ_of_lt (hlt x hx2)
      · rw [List.mem_singleton.mp hx2]
        exact Nat.lt_succ_self _
    · show (st.active_connections ++ [st.next_id]).Nodup
      refine List.nodup_append.mpr ⟨hnd, List.nodup_singleton _, ?_⟩
      intro a ha hb
      rw [List.mem_singleton.mp hb] at ha
      exact absurd (hlt _ ha) (lt_irrefl _)
  | disconnect c =>
    show Inv (disconnect st c)
    rw [disconnect]
    by_cases hac : st.active_connections.contains c = true
    · rw [if_pos hac]
      refine ⟨?_, hnd.erase c, ?_, ?_, removeFromIndex_nonempty _ c hs3,
        ?_, ?_, removeFromIndex_nonempty _ c hc3⟩
      · intro x hx
        exact hlt x ((st.active_connections.erase_sublist c).subset hx)
      · exact (cids_removeFromIndex_sublist _ c).nodup hs1
      · intro x hx
        have hx0 : x ∈ cids st.spy_connections :=
          (cids_removeFromIndex_sublist _ c).subset hx
        have hne : x ≠ c := by
          intro heq
          subst heq
          exact not_mem_cids_removeFromIndex _ x hs1 hx
        exact (List.mem_erase_of_ne hne).mpr (hs2 x hx0)
      · exact (cids_removeFromIndex_sublist _ c).nodup hc1
      · intro x hx
        have hx0 : x ∈ cids st.conversation_connections :=
          (cids_removeFromIndex_sublist _ c).subset hx
        have hne : x ≠ c := by
          intro heq
          subst heq
          exact not_mem_cids_removeFromIndex _ x hc1 hx
        exact (List.mem_erase_of_ne hne).mpr (hc2 x hx0)
    · rw [if_neg hac]
      exact ⟨hlt, hnd, hs1, hs2, hs3, hc1, hc2, hc3⟩

theorem inv_init : Inv initState := by
  refine ⟨?_, ?_, ?_, ?_, ?_, ?_, ?_, ?_⟩ <;> simp [initState, cids]

theorem inv_foldl (ops : List Op) : ∀ st, Inv st → Inv (ops.foldl runOp st) := by
  induction ops with
  | nil => intro st h; exact h
  | cons op rest ih =>
    intro st h
    exact ih _ (runOp_preserves st op h)

theorem inv_run (ops : List Op) : Inv (run ops) :=
  inv_foldl ops initState inv_init

theorem indexOk_of_inv (st : State) (h : Inv st) : indexOk st = true := by
  obtain ⟨_, _, _, hs2, hs3, _, hc2, hc3⟩ := h
  have hone : ∀ (index : List (String × List Nat)),
      (∀ x ∈ cids index, x ∈ st.active_connections) →
      (∀ kv ∈ index, kv.2 ≠ []) →
      bucketsOk index st.active_connections = true := by
    intro index hM hB
    rw [bucketsOk, List.all_eq_true]
    intro kv hkv
    rw [Bool.and_eq_true]
    constructor
    · cases h2 : kv.2 with
      | nil => exact absurd h2 (hB kv hkv)
      | cons a as => rfl
    · rw [List.all_eq_true]
      intro x hx
      exact List.elem_eq_true_of_mem (hM x (mem_cids index kv hkv x hx))
  rw [indexOk, Bool.and_eq_true]
  exact ⟨hone _ hs2 hs3, hone _ hc2 hc3⟩

end ConnManager

/-- C8: after every sequence of connect and disconnect operations on the
registry, every bucket of the spy index and of the conversation index is
a non-empty list whose connection ids are all keys of the active map; in
particular a further disconnect leaves that invariant intact (so any
bucket it empties is deleted) and leaves the disconnected id in no index
bucket. -/
theorem C8_registry_indexes (ops : List ConnManager.Op) (c : Nat) :
    ConnManager.indexOk (ConnManager.run ops) = true ∧
    ConnManager.indexOk (ConnManager.disconnect (ConnManager.run ops) c) = true ∧
    ¬ c ∈ ConnManager.cids
        (ConnManager.disconnect (ConnManager.run ops) c).spy_connections ∧
    ¬ c ∈ ConnManager.cids
        (ConnManager.disconnect (ConnManager.run ops) c).conversation_connections := by
  have hinv := ConnManager.inv_run ops
  have hinv2 : ConnManager.Inv (ConnManager.disconnect (ConnManager.run ops) c) :=
    ConnManager.runOp_preserves (ConnManager.run ops) (.disconnect c) hinv
  have hcopy := hinv
  obtain ⟨_, _, hs1, hs2, _, hc1, hc2, _⟩ := hcopy
  refine ⟨ConnManager.indexOk_of_inv _ hinv, ConnManager.indexOk_of_inv _ hinv2, ?_, ?_⟩
  · rw [ConnManager.disconnect]
    by_cases hac : (ConnManager.run ops).active_connections.contains c = true
    · rw [if_pos hac]
      exact ConnManager.not_mem_cids_removeFromIndex _ c hs1
    · rw [if_neg hac]
      intro hmem
      exact hac (List.elem_eq_true_of_mem (hs2 c hmem))
  · rw [ConnManager.disconnect]
    by_cases hac : (ConnManager.run ops).active_connections.contains c = true
    · rw [if_pos hac]
      exact ConnManager.not_mem_cids_removeFromIndex _ c hc1
    · rw [if_neg hac]
      intro hmem
      exact hac (List.elem_eq_true_of_mem (hc2 c hmem))
